import Mathlib

/-!
Verification development for a terminal-emulator command engine
(`terminal/core.py`).  The engine state (working directory, history,
files), the built-in command handlers and the dispatch loop of
`TerminalCore.execute_command` are embedded shallowly as executable Lean
functions.  Host effects that the Python code reads from the outside
world (clock, `os.environ`, regular-expression search, the optional
`psutil` collector, `subprocess.run`) are passed in explicitly through
an `Env` record; the real filesystem is modelled by an in-memory tree
with the usual unique-child-name invariant.
-/

namespace TermSpec

/-- Python whitespace test used by `str.strip()` / `str.split()`. -/
def pySpace (c : Char) : Bool :=
  c = ' ' || c = '\t' || c = '\n' || c = '\r' || c = '\x0b' || c = '\x0c'

def dropLeading : List Char → List Char
  | [] => []
  | c :: cs => if pySpace c then dropLeading cs else c :: cs

/-- Model of Python `str.strip()` (no arguments). -/
def pyStrip (s : String) : String :=
  String.mk (dropLeading ((dropLeading s.toList.reverse).reverse))

def splitWsAux (cur : List Char) : List Char → List (List Char)
  | [] => if cur.isEmpty then [] else [cur.reverse]
  | c :: cs =>
    if pySpace c then
      if cur.isEmpty then splitWsAux [] cs else cur.reverse :: splitWsAux [] cs
    else splitWsAux (c :: cur) cs

/-- Model of Python `str.split()` (no arguments): split on runs of
whitespace, dropping empty pieces. -/
def pySplit (s : String) : List String :=
  (splitWsAux [] s.toList).map String.mk

def lowerChar (c : Char) : Char :=
  if 'A' ≤ c && c ≤ 'Z' then Char.ofNat (c.toNat + 32) else c

/-- Model of Python `str.lower()` (restricted to ASCII, which covers the
command names the engine dispatches on). -/
def lowerStr (s : String) : String :=
  String.mk (s.toList.map lowerChar)

def strIntercalate (sep : String) : List String → String
  | [] => ""
  | [x] => x
  | x :: y :: rest => x ++ sep ++ strIntercalate sep (y :: rest)

def repeatChar (c : Char) (n : Nat) : String :=
  String.mk (List.replicate n c)

/-- Right-justify in a field of width `w`, as Python format `{x:Nd}`. -/
def padLeft (w : Nat) (s : String) : String :=
  repeatChar ' ' (w - s.toList.length) ++ s

/-- Left-justify in a field of width `w`, as Python format `{x:<N}`. -/
def padRight (w : Nat) (s : String) : String :=
  s ++ repeatChar ' ' (w - s.toList.length)

def isPrefixCh : List Char → List Char → Bool
  | [], _ => true
  | _ :: _, [] => false
  | a :: as, b :: bs => a = b && isPrefixCh as bs

def isInfixCh (n : List Char) : List Char → Bool
  | [] => n.isEmpty
  | b :: bs => isPrefixCh n (b :: bs) || isInfixCh n bs

/-- Model of the Python substring test `needle in hay`. -/
def pyIn (needle hay : String) : Bool :=
  isInfixCh needle.toList hay.toList

def strLeCh : List Char → List Char → Bool
  | [], _ => true
  | _ :: _, [] => false
  | a :: as, b :: bs =>
    if a.toNat < b.toNat then true
    else if b.toNat < a.toNat then false
    else strLeCh as bs

/-- Lexicographic (code-point) order on strings, as Python `sorted` uses. -/
def strLe (a b : String) : Bool :=
  strLeCh a.toList b.toList

def insertSortedBy (le : α → α → Bool) (x : α) : List α → List α
  | [] => [x]
  | y :: ys => if le y x then y :: insertSortedBy le x ys else x :: y :: ys

/-- Insertion sort; models Python `sorted` with the given order. -/
def sortBy (le : α → α → Bool) : List α → List α
  | [] => []
  | x :: xs => insertSortedBy le x (sortBy le xs)

def sortStr (l : List String) : List String :=
  sortBy strLe l

/-- Test for Python `item.startswith(".")` on a single character. -/
def strStartsDot (s : String) : Bool :=
  match s.toList with
  | '.' :: _ => true
  | _ => false

def enumFrom (i : Nat) : List α → List (Nat × α)
  | [] => []
  | x :: xs => (i, x) :: enumFrom (i + 1) xs

def takeLast (n : Nat) (l : List α) : List α :=
  l.drop (l.length - n)

def quoteS (p : String) : String :=
  "\x27" ++ p ++ "\x27"

/-! ## Path model (POSIX `os.path`) -/

def splitSlashAux (cur : List Char) : List Char → List String
  | [] => [String.mk cur.reverse]
  | c :: cs =>
    if c = '/' then String.mk cur.reverse :: splitSlashAux [] cs
    else splitSlashAux (c :: cur) cs

def splitSlash (s : String) : List String :=
  splitSlashAux [] s.toList

def strStartsSlash (s : String) : Bool :=
  match s.toList with
  | '/' :: _ => true
  | _ => false

def strEndsSlash (s : String) : Bool :=
  match s.toList.reverse with
  | '/' :: _ => true
  | _ => false

/-- Model of POSIX `os.path.join` for two operands. -/
def osPathJoin (a b : String) : String :=
  if strStartsSlash b then b
  else if a = "" || strEndsSlash a then a ++ b
  else a ++ "/" ++ b

/-- Component list of `os.path.normpath p` for an absolute `p`: empty and
`.` components are dropped and `..` pops the previous component (and is
dropped at the root, as `normpath` does for absolute paths). -/
def absNormParts (p : String) : List String :=
  (splitSlash p).foldl
    (fun acc comp =>
      if comp = "" || comp = "." then acc
      else if comp = ".." then acc.dropLast
      else acc ++ [comp]) []

def renderAbs (parts : List String) : String :=
  "/" ++ strIntercalate "/" parts

/-- Model of `os.path.abspath (os.path.join cwd p)`; the engine only calls
this with an absolute `cwd`, for which `abspath` is `normpath`. -/
def osAbspath (cwd p : String) : String :=
  renderAbs (absNormParts (osPathJoin cwd p))

/-- Model of `os.path.basename`. -/
def osBasename (p : String) : String :=
  match (splitSlash p).reverse with
  | last :: _ => last
  | [] => ""

def commonLen : List String → List String → Nat
  | a :: as, b :: bs => if a = b then commonLen as bs + 1 else 0
  | _, _ => 0

/-- Model of `os.path.relpath p start` for absolute `p` and `start`. -/
def osRelpath (p start : String) : String :=
  let pl := absNormParts p
  let sl := absNormParts start
  let i := commonLen pl sl
  let rel := List.replicate (sl.length - i) ".." ++ pl.drop i
  if rel = [] then "." else strIntercalate "/" rel

/-! ## Filesystem model -/

/-- The slice of `os.stat` data the engine consumes (`st_mode`, `st_size`,
`st_mtime`). -/
structure FileMeta where
  mode : Nat
  size : Nat
  mtime : Nat
deriving DecidableEq

def meta0 : FileMeta := ⟨0, 0, 0⟩

/-- In-memory filesystem tree; directory children are listed in the order
`os.listdir` would report them, with unique names. -/
inductive Node where
  | file (content : String) (meta : FileMeta)
  | dir (children : List (String × Node)) (meta : FileMeta)

def isDirNode : Node → Bool
  | .dir .. => true
  | .file .. => false

def childNamed : List (String × Node) → String → Option Node
  | [], _ => none
  | c :: rest, name => if c.1 = name then some c.2 else childNamed rest name

def setChild : List (String × Node) → String → Node → List (String × Node)
  | [], _, _ => []
  | c :: rest, name, v =>
    if c.1 = name then (c.1, v) :: rest else c :: setChild rest name v

def eraseAll (cs : List (String × Node)) (name : String) : List (String × Node) :=
  cs.filter (fun c => !(c.1 == name))

def lookupPath : List String → Node → Option Node
  | [], n => some n
  | name :: rest, .dir cs _ =>
    match childNamed cs name with
    | some c => lookupPath rest c
    | none => none
  | _ :: _, .file .. => none

def errNoEnt (p : String) : String :=
  "[Errno 2] No such file or directory: " ++ quoteS p

def errIsDir (p : String) : String :=
  "[Errno 21] Is a directory: " ++ quoteS p

def errNotDir (p : String) : String :=
  "[Errno 20] Not a directory: " ++ quoteS p

def errNotEmpty (p : String) : String :=
  "[Errno 39] Directory not empty: " ++ quoteS p

def errExists (p : String) : String :=
  "[Errno 17] File exists: " ++ quoteS p

def errInval (p : String) : String :=
  "[Errno 22] Invalid argument: " ++ quoteS p

/-- Model of `os.path.isdir` (path resolved like the kernel would). -/
def osIsDir (fs : Node) (p : String) : Bool :=
  match lookupPath (absNormParts p) fs with
  | some (.dir ..) => true
  | _ => false

/-- Model of `os.listdir`. -/
def osListdir (fs : Node) (p : String) : Except String (List String) :=
  match lookupPath (absNormParts p) fs with
  | some (.dir cs _) => .ok (cs.map (fun c => c.1))
  | some (.file ..) => .error (errNotDir p)
  | none => .error (errNoEnt p)

/-- Model of `os.stat` (the fields the engine reads). -/
def osStat (fs : Node) (p : String) : Option FileMeta :=
  match lookupPath (absNormParts p) fs with
  | some (.file _ m) => some m
  | some (.dir _ m) => some m
  | none => none

/-- Model of opening a file for reading and calling `read()`. -/
def osReadFile (fs : Node) (p : String) : Except String String :=
  match lookupPath (absNormParts p) fs with
  | some (.file content _) => .ok content
  | some (.dir ..) => .error (errIsDir p)
  | none => .error (errNoEnt p)

/-- Model of `os.remove`: removes a file, raises on directories and on
missing paths. -/
def removeFileAt (p : String) : List String → Node → Except String Node
  | [], _ => .error (errIsDir p)
  | [name], .dir cs m =>
    match childNamed cs name with
    | some (.dir ..) => .error (errIsDir p)
    | some (.file ..) => .ok (.dir (eraseAll cs name) m)
    | none => .error (errNoEnt p)
  | [_], .file .. => .error (errNotDir p)
  | name :: rest, .dir cs m =>
    match childNamed cs name with
    | some c => (removeFileAt p rest c).map (fun c2 => Node.dir (setChild cs name c2) m)
    | none => .error (errNoEnt p)
  | _ :: _, .file .. => .error (errNotDir p)

/-- Model of `shutil.rmtree`: removes a directory subtree, raises on
files and on missing paths. -/
def rmtreeAt (p : String) : List String → Node → Except String Node
  | [], _ => .error (errInval p)
  | [name], .dir cs m =>
    match childNamed cs name with
    | some (.dir ..) => .ok (.dir (eraseAll cs name) m)
    | some (.file ..) => .error (errNotDir p)
    | none => .error (errNoEnt p)
  | [_], .file .. => .error (errNotDir p)
  | name :: rest, .dir cs m =>
    match childNamed cs name with
    | some c => (rmtreeAt p rest c).map (fun c2 => Node.dir (setChild cs name c2) m)
    | none => .error (errNoEnt p)
  | _ :: _, .file .. => .error (errNotDir p)

def osRemoveP (fs : Node) (p : String) : Except String Node :=
  removeFileAt p (absNormParts p) fs

def rmtreeP (fs : Node) (p : String) : Except String Node :=
  rmtreeAt p (absNormParts p) fs

/-- Model of `os.makedirs (…, exist_ok := True)`: creates the whole chain,
tolerates an existing directory, raises when a component is a file. -/
def makedirsAt (p : String) : List String → Node → Except String Node
  | [], n =>
    match n with
    | .dir .. => .ok n
    | .file .. => .error (errExists p)
  | name :: rest, .dir cs m =>
    match childNamed cs name with
    | some c => (makedirsAt p rest c).map (fun c2 => Node.dir (setChild cs name c2) m)
    | none =>
      (makedirsAt p rest (Node.dir [] meta0)).map
        (fun c2 => Node.dir (cs ++ [(name, c2)]) m)
  | _ :: _, .file .. => .error (errNotDir p)

/-- Model of `os.rmdir`: removes an empty directory only. -/
def rmdirAt (p : String) : List String → Node → Except String Node
  | [], _ => .error (errInval p)
  | [name], .dir cs m =>
    match childNamed cs name with
    | some (.dir cs2 _) =>
      if cs2.isEmpty then .ok (.dir (eraseAll cs name) m) else .error (errNotEmpty p)
    | some (.file ..) => .error (errNotDir p)
    | none => .error (errNoEnt p)
  | [_], .file .. => .error (errNotDir p)
  | name :: rest, .dir cs m =>
    match childNamed cs name with
    | some c => (rmdirAt p rest c).map (fun c2 => Node.dir (setChild cs name c2) m)
    | none => .error (errNoEnt p)
  | _ :: _, .file .. => .error (errNotDir p)

/-- Model of `pathlib.Path.touch()`: creates an empty file (the parent
must exist) or refreshes the modification time of an existing entry. -/
def touchAt (p : String) (now : Nat) : List String → Node → Except String Node
  | [], n =>
    match n with
    | .dir cs m => .ok (.dir cs { m with mtime := now })
    | .file c m => .ok (.file c { m with mtime := now })
  | [name], .dir cs m =>
    match childNamed cs name with
    | some (.file c fm) => .ok (.dir (setChild cs name (.file c { fm with mtime := now })) m)
    | some (.dir cs2 dm) => .ok (.dir (setChild cs name (.dir cs2 { dm with mtime := now })) m)
    | none => .ok (.dir (cs ++ [(name, .file "" ⟨0, 0, now⟩)]) m)
  | [_], .file .. => .error (errNotDir p)
  | name :: rest, .dir cs m =>
    match childNamed cs name with
    | some c => (touchAt p now rest c).map (fun c2 => Node.dir (setChild cs name c2) m)
    | none => .error (errNoEnt p)
  | _ :: _, .file .. => .error (errNotDir p)

/-- Write a file at a path whose parent exists, overwriting an existing
file; raises when the target is a directory (as `open(…, "wb")` would). -/
def writeFileAt (p : String) (content : String) (fm : FileMeta) :
    List String → Node → Except String Node
  | [], _ => .error (errIsDir p)
  | [name], .dir cs m =>
    match childNamed cs name with
    | some (.dir ..) => .error (errIsDir p)
    | some (.file ..) => .ok (.dir (setChild cs name (.file content fm)) m)
    | none => .ok (.dir (cs ++ [(name, .file content fm)]) m)
  | [_], .file .. => .error (errNotDir p)
  | name :: rest, .dir cs m =>
    match childNamed cs name with
    | some c => (writeFileAt p content fm rest c).map (fun c2 => Node.dir (setChild cs name c2) m)
    | none => .error (errNoEnt p)
  | _ :: _, .file .. => .error (errNotDir p)

/-- Insert a node at a path that must not exist yet (parent must exist),
as `shutil.copytree` requires of its destination. -/
def insertNodeAt (p : String) (v : Node) : List String → Node → Except String Node
  | [], _ => .error (errExists p)
  | [name], .dir cs m =>
    match childNamed cs name with
    | some _ => .error (errExists p)
    | none => .ok (.dir (cs ++ [(name, v)]) m)
  | [_], .file .. => .error (errNotDir p)
  | name :: rest, .dir cs m =>
    match childNamed cs name with
    | some c => (insertNodeAt p v rest c).map (fun c2 => Node.dir (setChild cs name c2) m)
    | none => .error (errNoEnt p)
  | _ :: _, .file .. => .error (errNotDir p)

/-- Remove any node (file or subtree) at a path, for `shutil.move`. -/
def removeAnyAt (p : String) : List String → Node → Except String Node
  | [], _ => .error (errNoEnt p)
  | [name], .dir cs m =>
    match childNamed cs name with
    | some _ => .ok (.dir (eraseAll cs name) m)
    | none => .error (errNoEnt p)
  | [_], .file .. => .error (errNotDir p)
  | name :: rest, .dir cs m =>
    match childNamed cs name with
    | some c => (removeAnyAt p rest c).map (fun c2 => Node.dir (setChild cs name c2) m)
    | none => .error (errNoEnt p)
  | _ :: _, .file .. => .error (errNotDir p)

/-- Place a node at a path, overwriting an existing file entry (parent
must exist), for the destination side of `shutil.move`. -/
def setNodeAt (p : String) (v : Node) : List String → Node → Except String Node
  | [], _ => .error (errExists p)
  | [name], .dir cs m =>
    match childNamed cs name with
    | some _ => .ok (.dir (setChild cs name v) m)
    | none => .ok (.dir (cs ++ [(name, v)]) m)
  | [_], .file .. => .error (errNotDir p)
  | name :: rest, .dir cs m =>
    match childNamed cs name with
    | some c => (setNodeAt p v rest c).map (fun c2 => Node.dir (setChild cs name c2) m)
    | none => .error (errNoEnt p)
  | _ :: _, .file .. => .error (errNotDir p)

/-- Model of `shutil.copy2 src dst`: a directory destination receives the
file under the source basename; content and metadata are copied. -/
def copy2FS (fs : Node) (src dst : String) : Except String Node :=
  match lookupPath (absNormParts src) fs with
  | none => .error (errNoEnt src)
  | some (.dir ..) => .error (errIsDir src)
  | some (.file content fm) =>
    let dstReal := if osIsDir fs dst then osPathJoin dst (osBasename src) else dst
    writeFileAt dstReal content fm (absNormParts dstReal) fs

/-- Model of `shutil.copytree src dst` (destination must not exist). -/
def copytreeFS (fs : Node) (src dst : String) : Except String Node :=
  match lookupPath (absNormParts src) fs with
  | some n => insertNodeAt dst n (absNormParts dst) fs
  | none => .error (errNoEnt src)

/-- Model of `shutil.move src dst`: a directory destination receives the
entry under the source basename. -/
def moveFS (fs : Node) (src dst : String) : Except String Node :=
  match lookupPath (absNormParts src) fs with
  | none => .error (errNoEnt src)
  | some n =>
    let dstReal := if osIsDir fs dst then osPathJoin dst (osBasename src) else dst
    match removeAnyAt src (absNormParts src) fs with
    | .ok fs2 => setNodeAt dstReal n (absNormParts dstReal) fs2
    | .error e => .error e

mutual

/-- Model of `os.walk` from a node: top-down triples of
(root, directory names, file names), recursing into subdirectories in
listing order, exactly as `_handle_find` consumes them. -/
def walkNode : Node → String → List (String × List String × List String)
  | Node.file _ _, _ => []
  | Node.dir cs _, root =>
    (root, ((cs.filter fun c => isDirNode c.2).map fun c => c.1),
      ((cs.filter fun c => !isDirNode c.2).map fun c => c.1)) :: walkChildren cs root

def walkChildren : List (String × Node) → String → List (String × List String × List String)
  | [], _ => []
  | (k, v) :: rest, root =>
    (match v with
      | Node.dir _ _ => walkNode v (osPathJoin root k)
      | Node.file _ _ => []) ++ walkChildren rest root

end

/-- Model of `os.walk` from a path string; a missing or non-directory
start yields no triples (the errors are swallowed by `os.walk`). -/
def osWalkPath (fs : Node) (p : String) : List (String × List String × List String) :=
  match lookupPath (absNormParts p) fs with
  | some n => walkNode n p
  | none => []

/-! ## Session data model -/

/-- One history record: the pre-split original command text, the time of
submission and the working directory at submission. -/
structure HistoryEntry where
  command : String
  timestamp : Nat
  directory : String
deriving DecidableEq

/-- The `(output, exit_code, error_message)` triple of `execute_command`. -/
structure CommandResult where
  output : String
  exitCode : Int
  errorMessage : String
deriving DecidableEq

/-- Mutable engine state: `current_directory`, `command_history` and the
filesystem the handlers act on. -/
structure TermState where
  current_directory : String
  command_history : List HistoryEntry
  fs : Node

/-- Virtual-memory statistics already rendered as display strings (the
engine only interpolates them; float formatting is outside the model). -/
structure MemStats where
  total : String
  available : String
  used : String
  percent : String

structure DiskStats where
  total : String
  used : String
  free : String
  percent : String

/-- One `psutil` process record with display-rendered fields; `cpuKey` is
the numeric sort key standing in for the float `cpu_percent`. -/
structure ProcEntry where
  pid : String
  name : String
  status : String
  cpuR : String
  memR : String
  cpuKey : Nat

/-- The optional `psutil` collector.  Every call may fail with an
arbitrary exception, which the metrics handlers do NOT catch (they catch
only `ImportError`, modelled by the collector being absent). -/
structure Psutil where
  cpuPercent : Except String String
  cpuCount : Except String String
  cpuFreq : Except String (Option String)
  virtualMemory : Except String MemStats
  diskUsage : Except String DiskStats
  processIter : Except String (List ProcEntry)

/-- Host effects read by the engine: clock, user home, hostname,
`os.environ`, `strftime`, regular-expression search and the external
process runner (`subprocess.run`, yielding stdout, returncode, stderr,
or a spawn failure). -/
structure Env where
  now : Nat
  home : String
  node : String
  osEnviron : List (String × String)
  strftime : String → String
  fmtHMS : Nat → String
  fmtMtime : Nat → String
  reSearch : String → String → Bool
  psutil : Option Psutil
  subprocessRun : String → String → Except String (String × Int × String)

def envLookup : List (String × String) → String → Option String
  | [], _ => none
  | kv :: rest, k => if kv.1 = k then some kv.2 else envLookup rest k

/-- The `supported_commands` registry, in the insertion order of the
source dictionary. -/
def supportedCommands : List (String × String) :=
  [("ls", "List directory contents"),
   ("dir", "List directory contents (Windows)"),
   ("cd", "Change directory"),
   ("pwd", "Print working directory"),
   ("mkdir", "Create directory"),
   ("rmdir", "Remove directory"),
   ("rm", "Remove files or directories"),
   ("cp", "Copy files or directories"),
   ("mv", "Move/rename files or directories"),
   ("cat", "Display file contents"),
   ("head", "Display first lines of file"),
   ("tail", "Display last lines of file"),
   ("touch", "Create empty file or update timestamp"),
   ("whoami", "Display current user"),
   ("hostname", "Display system hostname"),
   ("date", "Display current date and time"),
   ("echo", "Display text or variables"),
   ("env", "Display environment variables"),
   ("ps", "Display process information"),
   ("kill", "Terminate processes"),
   ("jobs", "Display background jobs"),
   ("bg", "Resume job in background"),
   ("fg", "Resume job in foreground"),
   ("cpu", "Display CPU information"),
   ("memory", "Display memory usage"),
   ("disk", "Display disk usage"),
   ("top", "Display system processes (top-like)"),
   ("clear", "Clear terminal screen"),
   ("history", "Show command history"),
   ("help", "Display help information"),
   ("exit", "Exit terminal"),
   ("quit", "Exit terminal"),
   ("grep", "Search text in files"),
   ("find", "Find files and directories"),
   ("sort", "Sort lines in files"),
   ("uniq", "Remove duplicate lines"),
   ("wc", "Count lines, words, characters"),
   ("tar", "Archive files"),
   ("zip", "Create zip archives"),
   ("unzip", "Extract zip archives"),
   ("ping", "Test network connectivity"),
   ("curl", "Transfer data from servers"),
   ("wget", "Download files from web")]

/-! ## Built-in handlers -/

/-- `_handle_help`. -/
def handle_help (args : List String) : String :=
  match args with
  | [] =>
    "Available commands:\n" ++ repeatChar '=' 50 ++ "\n" ++
      supportedCommands.foldl
        (fun acc c => acc ++ padRight 15 c.1 ++ " - " ++ c.2 ++ "\n") "" ++
      "\nFor more information on a specific command, type: help <command>"
  | a :: _ =>
    let cmd := lowerStr a
    match envLookup supportedCommands cmd with
    | some desc => cmd ++ ": " ++ desc
    | none =>
      "No help available for " ++ quoteS cmd ++ ". Type " ++ quoteS "help" ++
        " for available commands."

/-- `_handle_clear` (the `os.system` side effect has no engine-visible
result; the handler returns the empty string). -/
def handle_clear : String := ""

/-- `_handle_history`: the most recent 20 entries, 1-indexed. -/
def handle_history (env : Env) (history : List HistoryEntry) (_args : List String) : String :=
  if history.isEmpty then "No command history available."
  else
    "Command History:\n" ++ repeatChar '=' 30 ++ "\n" ++
      (enumFrom 1 (takeLast 20 history)).foldl
        (fun acc e =>
          acc ++ padLeft 3 (Nat.repr e.1) ++ "  " ++ env.fmtHMS e.2.timestamp ++
            "  " ++ e.2.command ++ "\n") ""

/-- `_handle_cd`: returns the output string and the (possibly unchanged)
new current directory. -/
def handle_cd (env : Env) (fs : Node) (cwd : String) (args : List String) :
    String × String :=
  match args with
  | [] => ("cd: missing argument", cwd)
  | t :: _ =>
    let target := if t = "~" then env.home else t
    if t = "-" then ("Previous directory not tracked", cwd)
    else
      let newDir := osAbspath cwd target
      if osIsDir fs newDir then ("", newDir)
      else ("cd: " ++ target ++ ": No such file or directory", cwd)

/-- `_handle_pwd`. -/
def handle_pwd (cwd : String) : String := cwd

/-- The permission string from `_get_permissions`: nine `rwx` positions
keyed to mode bits 8..0. -/
def permTemplate : List Char := ['r', 'w', 'x', 'r', 'w', 'x', 'r', 'w', 'x']

def getPermissions (mode : Nat) : String :=
  String.mk ((enumFrom 0 permTemplate).map
    (fun ic => if mode &&& (1 <<< (8 - ic.1)) ≠ 0 then ic.2 else '-'))

/-- One long-format line of `_handle_ls`; a failing `os.stat` degrades to
the bare name. -/
def lsLongLine (env : Env) (fs : Node) (cwd item : String) : String :=
  match osStat fs (osPathJoin cwd item) with
  | some mi =>
    getPermissions mi.mode ++ " " ++ padLeft 8 (Nat.repr mi.size) ++ " " ++
      env.fmtMtime mi.mtime ++ " " ++ item
  | none => item

/-- `_handle_ls`: always lists the engine's current directory; `-a` and
`--all` include dot entries, `-l` and `--long` select the long format. -/
def handle_ls (env : Env) (fs : Node) (cwd : String) (args : List String) : String :=
  match osListdir fs cwd with
  | .error e => "ls: " ++ e
  | .ok items0 =>
    let items :=
      if !(args.contains "-a" || args.contains "--all") then
        items0.filter (fun i => !(strStartsDot i))
      else items0
    if args.contains "-l" || args.contains "--long" then
      strIntercalate "\n" ((sortStr items).map (fun item => lsLongLine env fs cwd item))
    else
      strIntercalate "\n" (sortStr items)

def mkdirLoop (cwd : String) : Node → List String → String × Node
  | fs, [] => ("", fs)
  | fs, name :: rest =>
    match makedirsAt (osPathJoin cwd name) (absNormParts (osPathJoin cwd name)) fs with
    | .ok fs2 => mkdirLoop cwd fs2 rest
    | .error e => ("mkdir: cannot create directory " ++ quoteS name ++ ": " ++ e, fs)

/-- `_handle_mkdir`: creates each name in turn; the first failure aborts
the batch with its message. -/
def handle_mkdir (fs : Node) (cwd : String) (args : List String) : String × Node :=
  if args.isEmpty then ("mkdir: missing operand", fs) else mkdirLoop cwd fs args

def rmdirLoop (cwd : String) : Node → List String → String × Node
  | fs, [] => ("", fs)
  | fs, name :: rest =>
    match rmdirAt (osPathJoin cwd name) (absNormParts (osPathJoin cwd name)) fs with
    | .ok fs2 => rmdirLoop cwd fs2 rest
    | .error e => ("rmdir: failed to remove " ++ quoteS name ++ ": " ++ e, fs)

/-- `_handle_rmdir`. -/
def handle_rmdir (fs : Node) (cwd : String) (args : List String) : String × Node :=
  if args.isEmpty then ("rmdir: missing operand", fs) else rmdirLoop cwd fs args

def rmLoop (cwd : String) (recursive : Bool) : Node → List String → String × Node
  | fs, [] => ("", fs)
  | fs, name :: rest =>
    let target := osPathJoin cwd name
    match (if recursive && osIsDir fs target then rmtreeP fs target else osRemoveP fs target) with
    | .ok fs2 => rmLoop cwd recursive fs2 rest
    | .error e => ("rm: cannot remove " ++ quoteS name ++ ": " ++ e, fs)

/-- `_handle_rm`: `-r` occurrences are detected, then filtered out of the
name list; only with `-r` are directories removed (recursively). -/
def handle_rm (fs : Node) (cwd : String) (args : List String) : String × Node :=
  if args.isEmpty then ("rm: missing operand", fs)
  else
    let recursive := args.contains "-r"
    let args2 := args.filter (fun a => !(a == "-r"))
    rmLoop cwd recursive fs args2

def cpLoop (cwd dest : String) (recursive : Bool) :
    Node → List String → Except (String × Node) Node
  | fs, [] => .ok fs
  | fs, source :: rest =>
    let srcPath := osPathJoin cwd source
    let destPath := osPathJoin cwd dest
    match (if recursive && osIsDir fs srcPath then copytreeFS fs srcPath destPath
           else copy2FS fs srcPath destPath) with
    | .ok fs2 => cpLoop cwd dest recursive fs2 rest
    | .error e => .error (e, fs)

/-- `_handle_cp`.  The missing-destination check fires on the RAW
argument count, before `-r` is filtered; when filtering leaves no
arguments at all the `args[-1]` subscript raises `IndexError`, which
escapes the handler (modelled as the `.error` case). -/
def handle_cp (fs : Node) (cwd : String) (args : List String) :
    Except String (String × Node) :=
  if args.length < 2 then .ok ("cp: missing destination file operand", fs)
  else
    let recursive := args.contains "-r"
    let args2 := args.filter (fun a => !(a == "-r"))
    match args2.getLast? with
    | none => .error "list index out of range"
    | some destination =>
      match cpLoop cwd destination recursive fs args2.dropLast with
      | .ok fs2 => .ok ("", fs2)
      | .error (e, fs2) => .ok ("cp: " ++ e, fs2)

def mvLoop (cwd dest : String) : Node → List String → Except (String × Node) Node
  | fs, [] => .ok fs
  | fs, source :: rest =>
    match moveFS fs (osPathJoin cwd source) (osPathJoin cwd dest) with
    | .ok fs2 => mvLoop cwd dest fs2 rest
    | .error e => .error (e, fs)

/-- `_handle_mv`. -/
def handle_mv (fs : Node) (cwd : String) (args : List String) : String × Node :=
  if args.length < 2 then ("mv: missing destination file operand", fs)
  else
    match mvLoop cwd (args.getLastD "") fs args.dropLast with
    | .ok fs2 => ("", fs2)
    | .error (e, fs2) => ("mv: " ++ e, fs2)

def catLoop (fs : Node) (cwd : String) (acc : List String) : List String → String
  | [] => strIntercalate "\n" acc.reverse
  | f :: rest =>
    match osReadFile fs (osPathJoin cwd f) with
    | .ok content => catLoop fs cwd (content :: acc) rest
    | .error e => "cat: " ++ f ++ ": " ++ e

/-- `_handle_cat`: contents joined by newlines; the first unreadable file
aborts with its per-file message. -/
def handle_cat (fs : Node) (cwd : String) (args : List String) : String :=
  if args.isEmpty then "cat: missing file operand" else catLoop fs cwd [] args

def touchLoop (now : Nat) (cwd : String) : Node → List String → String × Node
  | fs, [] => ("", fs)
  | fs, f :: rest =>
    match touchAt (osPathJoin cwd f) now (absNormParts (osPathJoin cwd f)) fs with
    | .ok fs2 => touchLoop now cwd fs2 rest
    | .error e => ("touch: cannot touch " ++ quoteS f ++ ": " ++ e, fs)

/-- `_handle_touch`. -/
def handle_touch (env : Env) (fs : Node) (cwd : String) (args : List String) :
    String × Node :=
  if args.isEmpty then ("touch: missing file operand", fs)
  else touchLoop env.now cwd fs args

/-- `_handle_echo`: arguments joined by single spaces. -/
def handle_echo (args : List String) : String :=
  strIntercalate " " args

/-- `_handle_whoami`: `os.environ.get("USERNAME", "Unknown")`. -/
def handle_whoami (env : Env) : String :=
  (envLookup env.osEnviron "USERNAME").getD "Unknown"

/-- `_handle_hostname`: `platform.node()`. -/
def handle_hostname (env : Env) : String :=
  env.node

/-- `_handle_date`: arguments, when given, are joined and passed verbatim
as the `strftime` format. -/
def handle_date (env : Env) (args : List String) : String :=
  env.strftime (if args.isEmpty then "%a %b %d %H:%M:%S %Z %Y" else strIntercalate " " args)

def pairLe (a b : String × String) : Bool :=
  if a.1 = b.1 then strLe a.2 b.2 else strLe a.1 b.1

/-- `_handle_env`: named variables (or an undefined-variable note), or
all of `os.environ` as sorted `KEY=VALUE` lines. -/
def handle_env (env : Env) (args : List String) : String :=
  match args with
  | [] =>
    strIntercalate "\n" ((sortBy pairLe env.osEnviron).map (fun kv => kv.1 ++ "=" ++ kv.2))
  | _ =>
    strIntercalate "\n"
      (args.map (fun v => (envLookup env.osEnviron v).getD (v ++ ": undefined variable")))

def psutilMissing : String :=
  "psutil not installed. Install with: pip install psutil"

/-- `_handle_cpu`: only a missing collector (`ImportError`) is handled;
any collector failure escapes as an exception. -/
def handle_cpu (env : Env) : Except String String :=
  match env.psutil with
  | none => .ok psutilMissing
  | some p => do
    let cp ← p.cpuPercent
    let cc ← p.cpuCount
    let cf ← p.cpuFreq
    pure (pyStrip ("CPU Usage: " ++ cp ++ "%\n" ++ "CPU Cores: " ++ cc ++ "\n" ++
      (match cf with
       | some f => "CPU Frequency: " ++ f ++ " MHz\n"
       | none => "")))

/-- `_handle_memory`. -/
def handle_memory (env : Env) : Except String String :=
  match env.psutil with
  | none => .ok psutilMissing
  | some p => do
    let m ← p.virtualMemory
    pure (pyStrip ("Total Memory: " ++ m.total ++ " GB\n" ++
      "Available Memory: " ++ m.available ++ " GB\n" ++
      "Used Memory: " ++ m.used ++ " GB\n" ++
      "Memory Usage: " ++ m.percent ++ "%\n"))

/-- `_handle_disk`. -/
def handle_disk (env : Env) : Except String String :=
  match env.psutil with
  | none => .ok psutilMissing
  | some p => do
    let d ← p.diskUsage
    pure (pyStrip ("Total Disk Space: " ++ d.total ++ " GB\n" ++
      "Used Disk Space: " ++ d.used ++ " GB\n" ++
      "Free Disk Space: " ++ d.free ++ " GB\n" ++
      "Disk Usage: " ++ d.percent ++ "%\n"))

/-- `_handle_ps`: processes sorted by CPU usage descending, top 20. -/
def handle_ps (env : Env) : Except String String :=
  match env.psutil with
  | none => .ok psutilMissing
  | some p => do
    let procs ← p.processIter
    let sorted := sortBy (fun a b => Nat.ble b.cpuKey a.cpuKey) procs
    pure (pyStrip
      (padRight 8 "PID" ++ " " ++ padRight 20 "NAME" ++ " " ++ padRight 10 "STATUS" ++
        " " ++ padRight 8 "CPU%" ++ " " ++ padRight 8 "MEM%" ++ "\n" ++
        repeatChar '-' 60 ++ "\n" ++
        (sorted.take 20).foldl
          (fun acc pr =>
            acc ++ padRight 8 pr.pid ++ " " ++ padRight 20 pr.name ++ " " ++
              padRight 10 pr.status ++ " " ++ padRight 8 pr.cpuR ++ " " ++
              padRight 8 pr.memR ++ "\n") ""))

def linesAux (acc : List Char) : List Char → List (List Char)
  | [] => if acc.isEmpty then [] else [acc.reverse]
  | c :: cs =>
    if c = '\n' then (acc.reverse ++ ['\n']) :: linesAux [] cs
    else linesAux (c :: acc) cs

/-- Line iteration of a Python text file: each line keeps its trailing
newline, a final unterminated line is kept bare. -/
def pyFileLines (s : String) : List String :=
  (linesAux [] s.toList).map String.mk

/-- The per-file output block of `_handle_grep`: one formatted line per
regex match, or a single error line when the file cannot be read. -/
def grepFileBlock (env : Env) (fs : Node) (cwd pattern fname : String) : List String :=
  match osReadFile fs (osPathJoin cwd fname) with
  | .ok content =>
    (enumFrom 1 (pyFileLines content)).filterMap
      (fun nl =>
        if env.reSearch pattern nl.2 then
          some (fname ++ ":" ++ Nat.repr nl.1 ++ ":" ++ pyStrip nl.2)
        else none)
  | .error e => ["grep: " ++ fname ++ ": " ++ e]

/-- `_handle_grep`: pattern then filenames, matches accumulated across
files in order; a per-file read failure becomes its own line. -/
def handle_grep (env : Env) (fs : Node) (cwd : String) (args : List String) : String :=
  if args.length < 2 then "grep: missing arguments"
  else
    let pattern := args.headD ""
    let results :=
      args.tail.foldl (fun acc fname => acc ++ grepFileBlock env fs cwd pattern fname) []
    if results.isEmpty then "" else strIntercalate "\n" results

/-- `_handle_find`: `args[0]` is the start path (the `'.'` default is
unreachable behind the missing-arguments guard), `args[1]` the name
filter defaulting to `"*"`; every walked entry whose name passes the
filter is reported relative to the current directory. -/
def handle_find (fs : Node) (cwd : String) (args : List String) : String :=
  if args.isEmpty then "find: missing arguments"
  else
    let path := args.headD "."
    let namePattern :=
      match args with
      | _ :: np :: _ => np
      | _ => "*"
    let searchPath := osPathJoin cwd path
    let results :=
      (osWalkPath fs searchPath).foldl
        (fun acc t =>
          acc ++ (t.2.1 ++ t.2.2).filterMap
            (fun item =>
              if namePattern == "*" || pyIn namePattern item then
                some (osRelpath (osPathJoin t.1 item) cwd)
              else none)) []
    if results.isEmpty then "" else strIntercalate "\n" results

/-! ## The engine -/

/-- `_execute_external_command`: stdout trimmed, stderr (when non-empty)
appended after a newline; a spawn failure becomes `("", 1, message)`. -/
def executeExternal (env : Env) (cwd command : String) : CommandResult :=
  match env.subprocessRun command cwd with
  | .ok (stdout, code, stderr) =>
    ⟨(if stderr ≠ "" then pyStrip stdout ++ "\n" ++ pyStrip stderr else pyStrip stdout),
      code, ""⟩
  | .error e => ⟨"", 1, "Failed to execute command: " ++ e⟩

/-- The command names handled by the dispatch chain of
`execute_command` (anything else goes to the external fallback). -/
def dispatchNames : List String :=
  ["exit", "quit", "help", "clear", "history", "cd", "pwd", "ls", "dir",
   "mkdir", "rmdir", "rm", "cp", "mv", "cat", "touch", "echo", "whoami",
   "hostname", "date", "env", "cpu", "memory", "disk", "ps", "grep", "find"]

/-- The dispatch chain of `execute_command` inside its `try` block: the
result is the handler output together with the updated filesystem and
working directory, or the description of an exception that escaped the
handler.  `none` selects the external fallback. -/
def runBuiltin (env : Env) (fs : Node) (cwd : String) (history : List HistoryEntry)
    (cmd : String) (args : List String) :
    Option (Except String (String × Node × String)) :=
  if cmd = "exit" || cmd = "quit" then some (.ok ("Goodbye!", fs, cwd))
  else if cmd = "help" then some (.ok (handle_help args, fs, cwd))
  else if cmd = "clear" then some (.ok (handle_clear, fs, cwd))
  else if cmd = "history" then some (.ok (handle_history env history args, fs, cwd))
  else if cmd = "cd" then
    some (.ok ((handle_cd env fs cwd args).1, fs, (handle_cd env fs cwd args).2))
  else if cmd = "pwd" then some (.ok (handle_pwd cwd, fs, cwd))
  else if cmd = "ls" || cmd = "dir" then some (.ok (handle_ls env fs cwd args, fs, cwd))
  else if cmd = "mkdir" then
    some (.ok ((handle_mkdir fs cwd args).1, (handle_mkdir fs cwd args).2, cwd))
  else if cmd = "rmdir" then
    some (.ok ((handle_rmdir fs cwd args).1, (handle_rmdir fs cwd args).2, cwd))
  else if cmd = "rm" then
    some (.ok ((handle_rm fs cwd args).1, (handle_rm fs cwd args).2, cwd))
  else if cmd = "cp" then
    some (match handle_cp fs cwd args with
      | .ok (out, fs2) => .ok (out, fs2, cwd)
      | .error e => .error e)
  else if cmd = "mv" then
    some (.ok ((handle_mv fs cwd args).1, (handle_mv fs cwd args).2, cwd))
  else if cmd = "cat" then some (.ok (handle_cat fs cwd args, fs, cwd))
  else if cmd = "touch" then
    some (.ok ((handle_touch env fs cwd args).1, (handle_touch env fs cwd args).2, cwd))
  else if cmd = "echo" then some (.ok (handle_echo args, fs, cwd))
  else if cmd = "whoami" then some (.ok (handle_whoami env, fs, cwd))
  else if cmd = "hostname" then some (.ok (handle_hostname env, fs, cwd))
  else if cmd = "date" then some (.ok (handle_date env args, fs, cwd))
  else if cmd = "env" then some (.ok (handle_env env args, fs, cwd))
  else if cmd = "cpu" then
    some (match handle_cpu env with
      | .ok out => .ok (out, fs, cwd)
      | .error e => .error e)
  else if cmd = "memory" then
    some (match handle_memory env with
      | .ok out => .ok (out, fs, cwd)
      | .error e => .error e)
  else if cmd = "disk" then
    some (match handle_disk env with
      | .ok out => .ok (out, fs, cwd)
      | .error e => .error e)
  else if cmd = "ps" then
    some (match handle_ps env with
      | .ok out => .ok (out, fs, cwd)
      | .error e => .error e)
  else if cmd = "grep" then some (.ok (handle_grep env fs cwd args, fs, cwd))
  else if cmd = "find" then some (.ok (handle_find fs cwd args, fs, cwd))
  else none

/-- The history record appended by `execute_command` before dispatch. -/
def mkHistoryEntry (env : Env) (st : TermState) (command : String) : HistoryEntry :=
  ⟨command, env.now, st.current_directory⟩

/-- `TerminalCore.execute_command`. -/
def execute (env : Env) (st : TermState) (command : String) : TermState × CommandResult :=
  if pyStrip command = "" then (st, ⟨"", 0, ""⟩)
  else
    let hist2 := st.command_history ++ [mkHistoryEntry env st command]
    let parts := pySplit (pyStrip command)
    let cmd := lowerStr (parts.headD "")
    let args := parts.tail
    match runBuiltin env st.fs st.current_directory hist2 cmd args with
    | some (Except.ok (out, fs2, cwd2)) =>
      (⟨cwd2, hist2, fs2⟩, ⟨out, 0, ""⟩)
    | some (Except.error e) =>
      (⟨st.current_directory, hist2, st.fs⟩, ⟨"", 1, e⟩)
    | none =>
      (⟨st.current_directory, hist2, st.fs⟩, executeExternal env st.current_directory command)

/-! ## Concrete session used to instantiate the theorems -/

def env0 : Env :=
  ⟨0, "/home/user", "host", [("USERNAME", "user")],
    fun _ => "", fun _ => "", fun _ => "", fun p l => pyIn p l, none,
    fun _ _ => .ok ("", 0, "")⟩

def fs0 : Node :=
  Node.dir
    [("d", Node.dir [("f", Node.file "x" meta0)] meta0),
     ("a.txt", Node.file "alpha\nbeta\n" meta0),
     (".hidden", Node.file "" meta0)] meta0

def st0 : TermState := ⟨"/", [], fs0⟩

/-- A collector whose first probe raises, to exercise the engine's outer
exception guard. -/
def psBad : Psutil :=
  ⟨.error "boom", .ok "1", .ok none, .error "boom", .error "boom", .ok []⟩

def envBad : Env :=
  ⟨0, "/home/user", "host", [("USERNAME", "user")],
    fun _ => "", fun _ => "", fun _ => "", fun p l => pyIn p l, some psBad,
    fun _ _ => .ok ("", 0, "")⟩

/-! ## C4: blank input -/

/-- Shared helper: the blank-input early return of `execute_command`. -/
theorem execute_blank_eq (env : Env) (st : TermState) (line : String)
    (h : pyStrip line = "") :
    execute env st line = (st, ⟨"", 0, ""⟩) := by
  unfold execute
  rw [if_pos h]

/-- C4: for every input string that is empty or consists only of
whitespace, `execute` returns `("", 0, "")` and leaves the history and
all other session state unchanged. -/
theorem execute_blank_input (env : Env) (st : TermState) (line : String)
    (h : pyStrip line = "") :
    execute env st line = (st, ⟨"", 0, ""⟩) :=
  execute_blank_eq env st line h

/-- Witness for C4 at the three-space input. -/
theorem execute_blank_input_witness :
    pyStrip "   " = "" ∧ execute env0 st0 "   " = (st0, ⟨"", 0, ""⟩) :=
  ⟨by decide, execute_blank_input env0 st0 "   " (by decide)⟩

/-! ## C2: history append -/

/-- C2: every non-blank submitted line appends exactly one history entry
holding the pre-split original text, the current timestamp and the
current directory, before dispatch (so also for failing, unrecognized
and exit/quit commands); and no operation ever mutates or removes an
existing entry — the old history is always a prefix of the new one. -/
theorem execute_history_append (env : Env) (st : TermState) (line : String)
    (hnb : ¬ pyStrip line = "") :
    (execute env st line).1.command_history
      = st.command_history ++ [⟨line, env.now, st.current_directory⟩] ∧
    ∀ other, ∃ t, (execute env st other).1.command_history = st.command_history ++ t := by
  have key : ∀ cline, ¬ pyStrip cline = "" →
      (execute env st cline).1.command_history
        = st.command_history ++ [⟨cline, env.now, st.current_directory⟩] := by
    intro cline h
    unfold execute
    rw [if_neg h]
    dsimp only
    split <;> simp [mkHistoryEntry]
  refine ⟨key line hnb, ?_⟩
  intro other
  by_cases h : pyStrip other = ""
  · exact ⟨[], by rw [execute_blank_eq env st other h]; simp⟩
  · exact ⟨[⟨other, env.now, st.current_directory⟩], key other h⟩

/-- Witness for C2 at a concrete failing command. -/
theorem execute_history_append_witness :
    ¬ pyStrip "cd nope" = "" ∧
    ((execute env0 st0 "cd nope").1.command_history
       = st0.command_history ++ [⟨"cd nope", env0.now, st0.current_directory⟩] ∧
     ∀ other, ∃ t,
       (execute env0 st0 other).1.command_history = st0.command_history ++ t) :=
  ⟨by decide, execute_history_append env0 st0 "cd nope" (by decide)⟩

/-! ## C1: two-tier error model of dispatch -/

/-- Every name of the dispatch chain is in fact dispatched (never sent to
the external fallback). -/
theorem runBuiltin_isSome (env : Env) (fs : Node) (cwd : String)
    (hist : List HistoryEntry) (cmd : String) (args : List String)
    (hb : cmd ∈ dispatchNames) :
    (runBuiltin env fs cwd hist cmd args).isSome = true := by
  fin_cases hb <;> simp [runBuiltin]

/-- C1: on a command line whose (case-folded) name matches a built-in, a
handler outcome that is a returned string becomes the output with exit
code 0 and empty error message, while an exception escaping the handler
becomes empty output, exit code 1 and the exception description as the
error message. -/
theorem execute_two_tier (env : Env) (st : TermState) (line : String)
    (hnb : ¬ pyStrip line = "")
    (hb : lowerStr ((pySplit (pyStrip line)).headD "") ∈ dispatchNames) :
    ∃ r, runBuiltin env st.fs st.current_directory
        (st.command_history ++ [mkHistoryEntry env st line])
        (lowerStr ((pySplit (pyStrip line)).headD ""))
        ((pySplit (pyStrip line)).tail) = some r ∧
      (∀ out fs2 cwd2, r = .ok (out, fs2, cwd2) →
        (execute env st line).2 = ⟨out, 0, ""⟩) ∧
      (∀ e, r = .error e → (execute env st line).2 = ⟨"", 1, e⟩) := by
  obtain ⟨r, hr⟩ := Option.isSome_iff_exists.mp
    (runBuiltin_isSome env st.fs st.current_directory
      (st.command_history ++ [mkHistoryEntry env st line])
      (lowerStr ((pySplit (pyStrip line)).headD ""))
      ((pySplit (pyStrip line)).tail) hb)
  refine ⟨r, hr, ?_, ?_⟩
  · intro out fs2 cwd2 hok
    subst hok
    unfold execute
    rw [if_neg hnb]
    dsimp only
    rw [hr]
  · intro e herr
    subst herr
    unfold execute
    rw [if_neg hnb]
    dsimp only
    rw [hr]

/-- Witness for C1: a `cpu` invocation with a collector whose probe
raises makes the exception escape, and the engine reports it through the
error-message slot with exit code 1. -/
theorem execute_two_tier_witness :
    ¬ pyStrip "cpu" = "" ∧
    lowerStr ((pySplit (pyStrip "cpu")).headD "") ∈ dispatchNames ∧
    (execute envBad st0 "cpu").2 = ⟨"", 1, "boom"⟩ := by
  refine ⟨by decide, by decide, ?_⟩
  obtain ⟨r, hr, hok, herr⟩ := execute_two_tier envBad st0 "cpu" (by decide) (by decide)
  have hval : runBuiltin envBad st0.fs st0.current_directory
      (st0.command_history ++ [mkHistoryEntry envBad st0 "cpu"])
      (lowerStr ((pySplit (pyStrip "cpu")).headD ""))
      ((pySplit (pyStrip "cpu")).tail) = some (.error "boom") := rfl
  rw [hval] at hr
  cases hr
  exact herr "boom" rfl

/-! ## C3: failed cd leaves the current directory unchanged -/

theorem isPrefixCh_self_append (n post : List Char) : isPrefixCh n (n ++ post) = true := by
  induction n with
  | nil => rfl
  | cons a as ih => simp [isPrefixCh, ih]

theorem isInfixCh_self_append (n post : List Char) : isInfixCh n (n ++ post) = true := by
  cases n with
  | nil => cases post <;> simp [isInfixCh, isPrefixCh]
  | cons a as => simp [isInfixCh, isPrefixCh, isPrefixCh_self_append]

theorem isInfixCh_append_left (pre n post : List Char) :
    isInfixCh n (pre ++ (n ++ post)) = true := by
  induction pre with
  | nil => exact isInfixCh_self_append n post
  | cons b bs ih => simp [isInfixCh, ih]

/-- A middle operand of a concatenation is a Python substring of it. -/
theorem pyIn_of_concat (a b c : String) : pyIn b (a ++ b ++ c) = true := by
  unfold pyIn
  have h : (a ++ b ++ c).toList = a.toList ++ (b.toList ++ c.toList) := by
    simp [String.toList, String.data_append]
  rw [h]
  exact isInfixCh_append_left a.toList b.toList c.toList

/-- The directory returned by `_handle_cd` is either the old one or one
the handler has just verified to be an existing directory. -/
theorem handle_cd_cwd (env : Env) (fs : Node) (cwd : String) (args : List String) :
    (handle_cd env fs cwd args).2 = cwd ∨
    osIsDir fs ((handle_cd env fs cwd args).2) = true := by
  unfold handle_cd
  cases args with
  | nil => exact Or.inl rfl
  | cons t rest =>
    dsimp only
    by_cases hdash : t = "-"
    · rw [if_pos hdash]
      exact Or.inl rfl
    · rw [if_neg hdash]
      by_cases hd : osIsDir fs (osAbspath cwd (if t = "~" then env.home else t)) = true
      · rw [if_pos hd]
        exact Or.inr hd
      · rw [if_neg hd]
        exact Or.inl rfl

/-- A name outside the dispatch chain falls through to the external
fallback. -/
theorem runBuiltin_none (env : Env) (fs : Node) (cwd : String) (hist : List HistoryEntry)
    (cmd : String) (args : List String) (hn : cmd ∉ dispatchNames) :
    runBuiltin env fs cwd hist cmd args = none := by
  simp only [dispatchNames, List.mem_cons, List.not_mem_nil, or_false, not_or] at hn
  obtain ⟨h1, h2, h3, h4, h5, h6, h7, h8, h9, h10, h11, h12, h13, h14, h15, h16, h17,
    h18, h19, h20, h21, h22, h23, h24, h25, h26, h27⟩ := hn
  simp [runBuiltin, h1, h2, h3, h4, h5, h6, h7, h8, h9, h10, h11, h12, h13, h14, h15,
    h16, h17, h18, h19, h20, h21, h22, h23, h24, h25, h26, h27]

/-- Across the dispatch chain, only `cd` reassigns the working directory,
and only to a verified directory. -/
theorem runBuiltin_cwd (env : Env) (fs : Node) (cwd : String) (hist : List HistoryEntry)
    (cmd : String) (args : List String) (out : String) (fs2 : Node) (cwd2 : String)
    (h : runBuiltin env fs cwd hist cmd args = some (.ok (out, fs2, cwd2))) :
    cwd2 = cwd ∨ osIsDir fs cwd2 = true := by
  by_cases hb : cmd ∈ dispatchNames
  · fin_cases hb <;> simp [runBuiltin] at h <;>
      first
        | exact Or.inl h.2.2.symm
        | (rw [← h.2.2]; exact handle_cd_cwd env fs cwd args)
        | (rcases hx : handle_cp fs cwd args with e | ⟨o, f2⟩ <;>
            (rw [hx] at h; simp at h)
           exact Or.inl h.2.2.symm)
        | (rcases hx : handle_cpu env with e | o <;> (rw [hx] at h; simp at h)
           exact Or.inl h.2.2.symm)
        | (rcases hx : handle_memory env with e | o <;> (rw [hx] at h; simp at h)
           exact Or.inl h.2.2.symm)
        | (rcases hx : handle_disk env with e | o <;> (rw [hx] at h; simp at h)
           exact Or.inl h.2.2.symm)
        | (rcases hx : handle_ps env with e | o <;> (rw [hx] at h; simp at h)
           exact Or.inl h.2.2.symm)
  · rw [runBuiltin_none env fs cwd hist cmd args hb] at h
    exact absurd h (by simp)

/-- C3: a `cd` whose resolved target is not an existing directory leaves
the current directory unchanged and reports a not-found message naming
the (tilde-expanded) target; and across all commands the current
directory is only ever reassigned to a verified existing directory. -/
theorem cd_failure_preserves_cwd (env : Env) (fs : Node) (cwd t : String)
    (rest : List String)
    (ht : ¬ t = "-")
    (hnd : osIsDir fs (osAbspath cwd (if t = "~" then env.home else t)) = false) :
    (handle_cd env fs cwd (t :: rest)
        = ("cd: " ++ (if t = "~" then env.home else t) ++ ": No such file or directory",
           cwd) ∧
      pyIn (if t = "~" then env.home else t) (handle_cd env fs cwd (t :: rest)).1 = true) ∧
    ∀ st line, (execute env st line).1.current_directory = st.current_directory ∨
      osIsDir st.fs ((execute env st line).1.current_directory) = true := by
  have hcd : handle_cd env fs cwd (t :: rest)
      = ("cd: " ++ (if t = "~" then env.home else t) ++ ": No such file or directory",
         cwd) := by
    unfold handle_cd
    dsimp only
    rw [if_neg ht, if_neg (by simp [hnd])]
  refine ⟨⟨hcd, ?_⟩, ?_⟩
  · rw [hcd]
    exact pyIn_of_concat "cd: " (if t = "~" then env.home else t)
      ": No such file or directory"
  · intro st line
    by_cases hbl : pyStrip line = ""
    · rw [execute_blank_eq env st line hbl]
      exact Or.inl rfl
    · unfold execute
      rw [if_neg hbl]
      dsimp only
      rcases hrb : runBuiltin env st.fs st.current_directory
          (st.command_history ++ [mkHistoryEntry env st line])
          (lowerStr ((pySplit (pyStrip line)).headD ""))
          ((pySplit (pyStrip line)).tail) with _ | r
      · exact Or.inl rfl
      · cases r with
        | error e => exact Or.inl rfl
        | ok v =>
          obtain ⟨out, fs2, cwd2⟩ := v
          exact runBuiltin_cwd env st.fs st.current_directory _ _ _ out fs2 cwd2 hrb

/-- Witness for C3 at a concrete missing target. -/
theorem cd_failure_preserves_cwd_witness :
    ¬ ("nope" : String) = "-" ∧
    osIsDir fs0 (osAbspath "/" (if ("nope" : String) = "~" then env0.home else "nope"))
      = false ∧
    ((handle_cd env0 fs0 "/" ["nope"]
        = ("cd: " ++ (if ("nope" : String) = "~" then env0.home else "nope") ++
            ": No such file or directory", "/") ∧
      pyIn (if ("nope" : String) = "~" then env0.home else "nope")
        (handle_cd env0 fs0 "/" ["nope"]).1 = true) ∧
     ∀ st line, (execute env0 st line).1.current_directory = st.current_directory ∨
       osIsDir st.fs ((execute env0 st line).1.current_directory) = true) :=
  ⟨by decide, by decide, cd_failure_preserves_cwd env0 fs0 "/" "nope" [] (by decide)
    (by decide)⟩

/-! ## C5: rm on directories, with and without -r -/

theorem childNamed_eraseAll (cs : List (String × Node)) (name : String) :
    childNamed (eraseAll cs name) name = none := by
  induction cs with
  | nil => rfl
  | cons c rest ih =>
    by_cases hc : c.1 = name
    · simpa [eraseAll, List.filter_cons, hc] using ih
    · simpa [eraseAll, List.filter_cons, hc, childNamed] using ih

theorem childNamed_setChild (cs : List (String × Node)) (name : String) (v c : Node)
    (h : childNamed cs name = some c) :
    childNamed (setChild cs name v) name = some v := by
  induction cs with
  | nil => simp [childNamed] at h
  | cons c0 rest ih =>
    by_cases hc : c0.1 = name
    · simp [setChild, childNamed, hc]
    · simp only [childNamed, if_neg hc] at h
      simp [setChild, childNamed, hc, ih h]

/-- `osIsDir` read back as a lookup result. -/
theorem osIsDir_eq_true_iff (fs : Node) (p : String) :
    osIsDir fs p = true ↔ ∃ cs m, lookupPath (absNormParts p) fs = some (.dir cs m) := by
  unfold osIsDir
  rcases h : lookupPath (absNormParts p) fs with _ | n
  · simp
  · cases n with
    | file c m => simp
    | dir cs m => exact iff_of_true rfl ⟨cs, m, rfl⟩

/-- `os.remove` refuses a directory, whatever the path depth. -/
theorem removeFileAt_of_dir (p : String) (parts : List String) :
    ∀ (fs : Node) (cs : List (String × Node)) (m : FileMeta),
      lookupPath parts fs = some (.dir cs m) →
      ∃ e, removeFileAt p parts fs = .error e := by
  induction parts with
  | nil => exact fun fs cs m _ => ⟨errIsDir p, rfl⟩
  | cons name rest ih =>
    intro fs cs m h
    cases fs with
    | file c fm => simp [lookupPath] at h
    | dir cs0 m0 =>
      cases rest with
      | nil =>
        rcases hc : childNamed cs0 name with _ | c
        · simp [lookupPath, hc] at h
        · simp only [lookupPath, hc] at h
          cases h
          exact ⟨errIsDir p, by simp [removeFileAt, hc]⟩
      | cons r rs =>
        rcases hc : childNamed cs0 name with _ | c
        · simp [lookupPath, hc] at h
        · simp only [lookupPath, hc] at h
          obtain ⟨e, he⟩ := ih c cs m h
          exact ⟨e, by simp [removeFileAt, hc, he, Except.map]⟩

/-- `shutil.rmtree` removes a directory subtree: it succeeds and the path
no longer resolves afterwards. -/
theorem rmtreeAt_of_dir (p : String) (parts : List String) :
    ∀ (fs : Node) (cs : List (String × Node)) (m : FileMeta), parts ≠ [] →
      lookupPath parts fs = some (.dir cs m) →
      ∃ fs2, rmtreeAt p parts fs = .ok fs2 ∧ lookupPath parts fs2 = none := by
  induction parts with
  | nil => exact fun fs cs m hne _ => absurd rfl hne
  | cons name rest ih =>
    intro fs cs m _ h
    cases fs with
    | file c fm => simp [lookupPath] at h
    | dir cs0 m0 =>
      cases rest with
      | nil =>
        rcases hc : childNamed cs0 name with _ | c
        · simp [lookupPath, hc] at h
        · simp only [lookupPath, hc] at h
          cases h
          refine ⟨.dir (eraseAll cs0 name) m0, by simp [rmtreeAt, hc], ?_⟩
          simp [lookupPath, childNamed_eraseAll]
      | cons r rs =>
        rcases hc : childNamed cs0 name with _ | c
        · simp [lookupPath, hc] at h
        · simp only [lookupPath, hc] at h
          obtain ⟨c2, hok, hnone⟩ := ih c cs m (by simp) h
          refine ⟨.dir (setChild cs0 name c2) m0, ?_, ?_⟩
          · simp [rmtreeAt, hc, hok, Except.map]
          · simp [lookupPath, childNamed_setChild cs0 name c2 c hc, hnone]

/-- C5: `rm` on an existing directory without `-r` fails with a
descriptive message and leaves the filesystem (hence the directory)
untouched; `rm -r` on the same directory (the flag filtered out of the
name list) removes it recursively, so it no longer exists. -/
theorem rm_directory_semantics (fs : Node) (cwd d : String)
    (hd : osIsDir fs (osPathJoin cwd d) = true)
    (hdr : ¬ d = "-r") :
    (∃ e, handle_rm fs cwd [d] = ("rm: cannot remove " ++ quoteS d ++ ": " ++ e, fs)) ∧
    (absNormParts (osPathJoin cwd d) ≠ [] →
      ∃ fs2, handle_rm fs cwd ["-r", d] = ("", fs2) ∧
        lookupPath (absNormParts (osPathJoin cwd d)) fs2 = none ∧
        osIsDir fs2 (osPathJoin cwd d) = false) := by
  obtain ⟨cs, m, hlk⟩ := (osIsDir_eq_true_iff fs (osPathJoin cwd d)).mp hd
  constructor
  · obtain ⟨e, he⟩ :=
      removeFileAt_of_dir (osPathJoin cwd d) (absNormParts (osPathJoin cwd d)) fs cs m hlk
    exact ⟨e, by simp [handle_rm, rmLoop, osRemoveP, hdr, Ne.symm hdr, he]⟩
  · intro hne
    obtain ⟨fs2, hok, hnone⟩ :=
      rmtreeAt_of_dir (osPathJoin cwd d) (absNormParts (osPathJoin cwd d)) fs cs m hne hlk
    refine ⟨fs2, ?_, hnone, ?_⟩
    · simp [handle_rm, rmLoop, rmtreeP, hdr, Ne.symm hdr, hd, hok]
    · simp [osIsDir, hnone]

/-- Witness for C5 on a directory `d` of the concrete filesystem. -/
theorem rm_directory_semantics_witness :
    osIsDir fs0 (osPathJoin "/" "d") = true ∧ ¬ ("d" : String) = "-r" ∧
    ((∃ e, handle_rm fs0 "/" ["d"]
        = ("rm: cannot remove " ++ quoteS "d" ++ ": " ++ e, fs0)) ∧
     (absNormParts (osPathJoin "/" "d") ≠ [] →
       ∃ fs2, handle_rm fs0 "/" ["-r", "d"] = ("", fs2) ∧
         lookupPath (absNormParts (osPathJoin "/" "d")) fs2 = none ∧
         osIsDir fs2 (osPathJoin "/" "d") = false)) :=
  ⟨by decide, by decide, rm_directory_semantics fs0 "/" "d" (by decide) (by decide)⟩

/-! ## C6: cp missing-destination check (corrected) -/

/-- Counterexample to C6 as stated: the two-token invocation `cp -r f`
has fewer than two arguments after `-r` removal, yet the handler does
not return the missing-destination message — the check fires on the raw
count, which is 2, so the handler proceeds with an empty source list,
copies nothing and returns the empty string. -/
theorem cp_flag_counterexample :
    handle_cp fs0 "/" ["-r", "f"] = .ok ("", fs0) ∧
    ¬ ("" : String) = "cp: missing destination file operand" :=
  ⟨rfl, by decide⟩

/-- C6 amended: the missing-destination check uses the raw argument
count, before `-r` removal — with fewer than two raw arguments the
message is returned and nothing is copied, while the two-token
invocation `cp -r name` passes the check, filters `-r` out, is left
with no sources, performs no copy and returns empty output. -/
theorem cp_missing_operand_amended (fs : Node) (cwd : String) :
    handle_cp fs cwd [] = .ok ("cp: missing destination file operand", fs) ∧
    (∀ a, handle_cp fs cwd [a] = .ok ("cp: missing destination file operand", fs)) ∧
    (∀ a, ¬ a = "-r" → handle_cp fs cwd ["-r", a] = .ok ("", fs)) := by
  refine ⟨rfl, fun a => rfl, fun a ha => ?_⟩
  simp [handle_cp, cpLoop, ha, Ne.symm ha]

/-- Witness for the amended C6. -/
theorem cp_missing_operand_amended_witness :
    ¬ ("x" : String) = "-r" ∧ handle_cp fs0 "/" ["-r", "x"] = .ok ("", fs0) :=
  ⟨by decide, (cp_missing_operand_amended fs0 "/").2.2 "x" (by decide)⟩

/-! ## C9: find defaults (corrected) -/

theorem foldl_append_eq (g : α → List β) (l : List α) (acc : List β) :
    l.foldl (fun a x => a ++ g x) acc = acc ++ (l.map g).flatten := by
  induction l generalizing acc with
  | nil => simp
  | cons x xs ih => simp [ih, List.append_assoc]

theorem filterMap_ite_eq_filter_map (P : α → Bool) (f : α → β) (l : List α) :
    l.filterMap (fun x => if P x then some (f x) else none) = (l.filter P).map f := by
  induction l with
  | nil => rfl
  | cons x xs ih =>
    by_cases h : P x <;> simp [List.filterMap_cons, List.filter_cons, h, ih]

theorem filter_map_pair (Q : α → Bool) (f : α → β) (l : List α) :
    ((l.map (fun x => (x, f x))).filter (fun y => Q y.1)).map (fun y => y.2)
      = (l.filter Q).map f := by
  induction l with
  | nil => rfl
  | cons x xs ih => by_cases h : Q x <;> simp [List.filter_cons, h, ih]

theorem filter_flatten_eq (P : β → Bool) (L : List (List β)) :
    L.flatten.filter P = (L.map (fun l => l.filter P)).flatten := by
  induction L with
  | nil => rfl
  | cons l Ls ih => simp [List.filter_append, ih]

theorem map_flatten_eq (f : β → γ) (L : List (List β)) :
    L.flatten.map f = (L.map (fun l => l.map f)).flatten := by
  induction L with
  | nil => rfl
  | cons l Ls ih => simp [ih]

/-- All entries a walk beneath `path` reports, as
(entry name, path relative to the current directory) pairs — the
match-all universe the `find` name filter selects from. -/
def walkItemPairs (fs : Node) (cwd p : String) : List (String × String) :=
  ((osWalkPath fs (osPathJoin cwd p)).map
    (fun t => (t.2.1 ++ t.2.2).map
      (fun item => (item, osRelpath (osPathJoin t.1 item) cwd)))).flatten

/-- Counterexample to C9 as stated: with no arguments `find` walks
nothing — it returns the missing-arguments message, and the entry
`a.txt` present beneath the current directory is not reported. -/
theorem find_no_args_counterexample :
    handle_find fs0 "/" [] = "find: missing arguments" ∧
    pyIn "a.txt" (handle_find fs0 "/" []) = false :=
  ⟨rfl, by decide⟩

/-- The result list `_handle_find` accumulates, read back as a filter of
the match-all walk universe. -/
theorem find_results_eq (fs : Node) (cwd p np : String) :
    (osWalkPath fs (osPathJoin cwd p)).foldl
        (fun acc t => acc ++ (t.2.1 ++ t.2.2).filterMap
          (fun item => if np == "*" || pyIn np item then
            some (osRelpath (osPathJoin t.1 item) cwd) else none)) []
      = ((walkItemPairs fs cwd p).filter
          (fun it => np == "*" || pyIn np it.1)).map (fun it => it.2) := by
  rw [foldl_append_eq, List.nil_append]
  unfold walkItemPairs
  rw [filter_flatten_eq, map_flatten_eq, List.map_map, List.map_map]
  congr 1
  apply List.map_congr_left
  intro t _
  simp only [Function.comp]
  rw [filterMap_ite_eq_filter_map (fun item => np == "*" || pyIn np item)
      (fun item => osRelpath (osPathJoin t.1 item) cwd)]
  exact (filter_map_pair (fun item => np == "*" || pyIn np item)
      (fun item => osRelpath (osPathJoin t.1 item) cwd) (t.2.1 ++ t.2.2)).symm

/-- C9 amended: `find` with no arguments returns the missing-arguments
message (the `'.'` start-path default is unreachable); with a start path
the name filter defaults to `"*"` and every walked entry is reported
relative to the current directory; with a second argument `q` an entry
is reported iff `q` is `"*"` or a substring of the entry name. -/
theorem find_semantics_amended (fs : Node) (cwd p q : String) :
    handle_find fs cwd [] = "find: missing arguments" ∧
    handle_find fs cwd [p] = handle_find fs cwd [p, "*"] ∧
    (handle_find fs cwd [p] =
      (let rs := (walkItemPairs fs cwd p).map (fun it => it.2)
       if rs.isEmpty then "" else strIntercalate "\n" rs)) ∧
    (handle_find fs cwd [p, q] =
      (let rs := ((walkItemPairs fs cwd p).filter
          (fun it => q == "*" || pyIn q it.1)).map (fun it => it.2)
       if rs.isEmpty then "" else strIntercalate "\n" rs)) := by
  have hstar : (walkItemPairs fs cwd p).filter
      (fun it => ("*" : String) == "*" || pyIn "*" it.1) = walkItemPairs fs cwd p := by
    simp
  refine ⟨rfl, rfl, ?_, ?_⟩
  · unfold handle_find
    dsimp only
    simp only [List.headD_cons, List.isEmpty_cons, Bool.false_eq_true, if_false]
    rw [find_results_eq fs cwd p "*", hstar]
  · unfold handle_find
    dsimp only
    simp only [List.headD_cons, List.isEmpty_cons, Bool.false_eq_true, if_false]
    rw [find_results_eq fs cwd p q]

/-! ## C7 and C10: ls filtering, sorting and flag-only argument use -/

theorem strLeCh_total (a : List Char) : ∀ b, strLeCh a b = true ∨ strLeCh b a = true := by
  induction a with
  | nil => exact fun b => Or.inl rfl
  | cons x xs ih =>
    intro b
    cases b with
    | nil => exact Or.inr rfl
    | cons y ys =>
      rcases Nat.lt_trichotomy x.toNat y.toNat with h | h | h
      · exact Or.inl (by simp [strLeCh, h])
      · rcases ih ys with ht | ht
        · exact Or.inl (by simp only [strLeCh]; rw [if_neg (by omega), if_neg (by omega)]; exact ht)
        · exact Or.inr (by simp only [strLeCh]; rw [if_neg (by omega), if_neg (by omega)]; exact ht)
      · exact Or.inr (by simp [strLeCh, h])

theorem strLeCh_trans (a : List Char) :
    ∀ b c, strLeCh a b = true → strLeCh b c = true → strLeCh a c = true := by
  induction a with
  | nil => exact fun _ _ _ _ => rfl
  | cons x xs ih =>
    intro b c h1 h2
    cases b with
    | nil => simp [strLeCh] at h1
    | cons y ys =>
      cases c with
      | nil => simp [strLeCh] at h2
      | cons z zs =>
        simp only [strLeCh] at h1 h2 ⊢
        rcases Nat.lt_trichotomy x.toNat y.toNat with hxy | hxy | hxy
        · rcases Nat.lt_trichotomy y.toNat z.toNat with hyz | hyz | hyz
          · rw [if_pos (by omega)]
          · rw [if_pos (by omega)]
          · rw [if_neg (by omega), if_pos (by omega)] at h2
            exact absurd h2 (by simp)
        · rw [if_neg (by omega), if_neg (by omega)] at h1
          rcases Nat.lt_trichotomy y.toNat z.toNat with hyz | hyz | hyz
          · rw [if_pos (by omega)]
          · rw [if_neg (by omega), if_neg (by omega)] at h2
            rw [if_neg (by omega), if_neg (by omega)]
            exact ih ys zs h1 h2
          · rw [if_neg (by omega), if_pos (by omega)] at h2
            exact absurd h2 (by simp)
        · rw [if_neg (by omega), if_pos (by omega)] at h1
          exact absurd h1 (by simp)

theorem strLe_total (a b : String) : strLe a b = true ∨ strLe b a = true :=
  strLeCh_total a.toList b.toList

theorem strLe_trans (a b c : String) (h1 : strLe a b = true) (h2 : strLe b c = true) :
    strLe a c = true :=
  strLeCh_trans a.toList b.toList c.toList h1 h2

theorem perm_insertSortedBy (le : α → α → Bool) (x : α) (l : List α) :
    (insertSortedBy le x l).Perm (x :: l) := by
  induction l with
  | nil => exact List.Perm.refl _
  | cons y ys ih =>
    by_cases h : le y x = true
    · simp only [insertSortedBy, if_pos h]
      exact (ih.cons y).trans (List.Perm.swap x y ys)
    · simp only [insertSortedBy, if_neg h]
      exact List.Perm.refl _

theorem perm_sortBy (le : α → α → Bool) (l : List α) : (sortBy le l).Perm l := by
  induction l with
  | nil => exact List.Perm.refl _
  | cons x xs ih => exact (perm_insertSortedBy le x (sortBy le xs)).trans (ih.cons x)

theorem pairwise_insertSortedBy (le : α → α → Bool)
    (htot : ∀ a b, le a b = true ∨ le b a = true)
    (htr : ∀ a b c, le a b = true → le b c = true → le a c = true)
    (x : α) (l : List α) (hl : l.Pairwise (fun a b => le a b = true)) :
    (insertSortedBy le x l).Pairwise (fun a b => le a b = true) := by
  induction l with
  | nil => simp [insertSortedBy]
  | cons y ys ih =>
    rcases List.pairwise_cons.mp hl with ⟨hy, hys⟩
    by_cases h : le y x = true
    · simp only [insertSortedBy, if_pos h]
      refine List.pairwise_cons.mpr ⟨?_, ih hys⟩
      intro z hz
      rcases List.mem_cons.mp ((perm_insertSortedBy le x ys).mem_iff.mp hz) with rfl | hzy
      · exact h
      · exact hy z hzy
    · simp only [insertSortedBy, if_neg h]
      refine List.pairwise_cons.mpr ⟨?_, hl⟩
      intro z hz
      have hxy : le x y = true := (htot x y).resolve_right h
      rcases List.mem_cons.mp hz with rfl | hzys
      · exact hxy
      · exact htr x y z hxy (hy z hzys)

theorem pairwise_sortBy (le : α → α → Bool)
    (htot : ∀ a b, le a b = true ∨ le b a = true)
    (htr : ∀ a b c, le a b = true → le b c = true → le a c = true)
    (l : List α) : (sortBy le l).Pairwise (fun a b => le a b = true) := by
  induction l with
  | nil => simp [sortBy]
  | cons x xs ih => exact pairwise_insertSortedBy le htot htr x _ ih

/-- C7: in simple (non-long) format, `ls`/`dir` lists the current
directory with dot entries excluded by default and included under
`-a`/`--all`, the surviving names sorted lexicographically and joined by
newlines. -/
theorem ls_simple_format (env : Env) (fs : Node) (cwd : String) (args : List String)
    (ns : List String)
    (hls : osListdir fs cwd = .ok ns)
    (hlong : (args.contains "-l" || args.contains "--long") = false) :
    ∃ names, handle_ls env fs cwd args = strIntercalate "\n" names ∧
      names.Perm (if args.contains "-a" || args.contains "--all" then ns
        else ns.filter (fun i => !(strStartsDot i))) ∧
      names.Pairwise (fun a b => strLe a b = true) := by
  refine ⟨sortStr (if args.contains "-a" || args.contains "--all" then ns
      else ns.filter (fun i => !(strStartsDot i))), ?_,
    perm_sortBy strLe _, pairwise_sortBy strLe strLe_total strLe_trans _⟩
  unfold handle_ls
  rw [hls]
  rcases Bool.or_eq_false_iff.mp hlong with ⟨hl1, hl2⟩
  have hl1m : ¬ "-l" ∈ args := by simpa using hl1
  have hl2m : ¬ "--long" ∈ args := by simpa using hl2
  by_cases ha : (args.contains "-a" || args.contains "--all") = true
  · have haP : "-a" ∈ args ∨ "--all" ∈ args := by simpa using ha
    rcases haP with ham | ham
    · simp [ham, hl1m, hl2m, sortStr]
    · simp [ham, hl1m, hl2m, sortStr]
  · have haP : ¬ "-a" ∈ args ∧ ¬ "--all" ∈ args := by simpa [not_or] using ha
    simp [haP.1, haP.2, hl1m, hl2m, sortStr]

/-- Witness for C7 on the concrete directory containing `.hidden`. -/
theorem ls_simple_format_witness :
    osListdir fs0 "/" = .ok ["d", "a.txt", ".hidden"] ∧
    ((([] : List String).contains "-l" || ([] : List String).contains "--long") = false) ∧
    (∃ names, handle_ls env0 fs0 "/" [] = strIntercalate "\n" names ∧
      names.Perm (if ([] : List String).contains "-a" || ([] : List String).contains "--all"
        then ["d", "a.txt", ".hidden"]
        else ["d", "a.txt", ".hidden"].filter (fun i => !(strStartsDot i))) ∧
      names.Pairwise (fun a b => strLe a b = true)) :=
  ⟨rfl, by decide, ls_simple_format env0 fs0 "/" [] ["d", "a.txt", ".hidden"] rfl (by decide)⟩

/-- C10: `ls`/`dir` reads its arguments only through the four flags
`-a`/`--all`/`-l`/`--long` and always lists the engine's current
directory — two argument lists agreeing on the flags (for example one
with an extra path operand) produce identical output. -/
theorem ls_ignores_operands (env : Env) (fs : Node) (cwd : String)
    (args1 args2 : List String)
    (ha : (args1.contains "-a" || args1.contains "--all")
        = (args2.contains "-a" || args2.contains "--all"))
    (hl : (args1.contains "-l" || args1.contains "--long")
        = (args2.contains "-l" || args2.contains "--long")) :
    handle_ls env fs cwd args1 = handle_ls env fs cwd args2 := by
  unfold handle_ls
  rw [ha, hl]

/-- Witness for C10: a path operand is ignored. -/
theorem ls_ignores_operands_witness :
    ((["somedir"] : List String).contains "-a" || (["somedir"] : List String).contains "--all")
      = (([] : List String).contains "-a" || ([] : List String).contains "--all") ∧
    ((["somedir"] : List String).contains "-l" || (["somedir"] : List String).contains "--long")
      = (([] : List String).contains "-l" || ([] : List String).contains "--long") ∧
    handle_ls env0 fs0 "/" ["somedir"] = handle_ls env0 fs0 "/" [] :=
  ⟨by decide, by decide, ls_ignores_operands env0 fs0 "/" ["somedir"] [] (by decide) (by decide)⟩

/-! ## C8: grep formatting and per-file independence -/

/-- C8: `grep pattern files…` emits, per file in argument order, one
`"<file>:<lineNumber>:<content>"` line per matching line; an unreadable
file contributes exactly its single error line without aborting the
remaining files; zero matches leave the output empty; and the engine
reports every grep result with exit code 0 and empty error message. -/
theorem grep_semantics (env : Env) (st : TermState) (line w p : String)
    (files : List String)
    (hne : ¬ files = [])
    (hnb : ¬ pyStrip line = "")
    (hsplit : pySplit (pyStrip line) = w :: p :: files)
    (hw : lowerStr w = "grep") :
    handle_grep env st.fs st.current_directory (p :: files) =
      (let blocks := (files.map (grepFileBlock env st.fs st.current_directory p)).flatten
       if blocks.isEmpty then "" else strIntercalate "\n" blocks) ∧
    (execute env st line).2
      = ⟨handle_grep env st.fs st.current_directory (p :: files), 0, ""⟩ := by
  constructor
  · unfold handle_grep
    have hlen : ¬ (p :: files).length < 2 := by
      cases files with
      | nil => exact absurd rfl hne
      | cons f fs2 => simp
    rw [if_neg hlen]
    dsimp only
    simp only [List.headD_cons, List.tail_cons]
    rw [foldl_append_eq]
    simp only [List.nil_append]
  · unfold execute
    rw [if_neg hnb]
    dsimp only
    rw [hsplit]
    simp only [List.headD_cons, List.tail_cons]
    rw [hw]
    simp [runBuiltin]

/-- Witness for C8 at a concrete two-line file (one matching line per
line containing the pattern). -/
theorem grep_semantics_witness :
    ¬ (["a.txt"] : List String) = [] ∧
    ¬ pyStrip "grep a a.txt" = "" ∧
    pySplit (pyStrip "grep a a.txt") = "grep" :: "a" :: ["a.txt"] ∧
    lowerStr "grep" = "grep" ∧
    (handle_grep env0 st0.fs st0.current_directory ("a" :: ["a.txt"]) =
      (let blocks :=
        (["a.txt"].map (grepFileBlock env0 st0.fs st0.current_directory "a")).flatten
       if blocks.isEmpty then "" else strIntercalate "\n" blocks) ∧
     (execute env0 st0 "grep a a.txt").2
       = ⟨handle_grep env0 st0.fs st0.current_directory ("a" :: ["a.txt"]), 0, ""⟩) :=
  ⟨by decide, by decide, by decide, by decide,
    grep_semantics env0 st0 "grep a a.txt" "grep" "a" ["a.txt"] (by decide) (by decide)
      (by decide) (by decide)⟩

end TermSpec
